import Mathlib

/-!
Verification of the process-memory flow module
(`grr_response_server/flows/general/memory.py`): the Yara scan flow, the
process-dump flow, the legacy dump-file migration and the legacy Windows
path canonicalizer.  Python strings are modelled as `List Char`, machine
integers as `Int`/`Nat`, in-place mutation as explicit state passing, and
a raised exception as an explicit error component of the result.
-/

set_option autoImplicit false

/-! ### Python string primitives used by the module -/

/-- Hex-digit test used by the Python builtin `int(s, 16)`. -/
def isHexDigitCh (c : Char) : Bool :=
  (('0'.toNat ≤ c.toNat) && (c.toNat ≤ '9'.toNat)) ||
  (('a'.toNat ≤ c.toNat) && (c.toNat ≤ 'f'.toNat)) ||
  (('A'.toNat ≤ c.toNat) && (c.toNat ≤ 'F'.toNat))

/-- Numeric value of a hex digit. -/
def hexDigitVal (c : Char) : Nat :=
  if ('0'.toNat ≤ c.toNat) && (c.toNat ≤ '9'.toNat) then c.toNat - '0'.toNat
  else if ('a'.toNat ≤ c.toNat) && (c.toNat ≤ 'f'.toNat) then c.toNat - 'a'.toNat + 10
  else c.toNat - 'A'.toNat + 10

/-- After at least one hex digit has been read: further digits, with single
underscores allowed between digits (Python numeric-literal rule). -/
def hexTail (acc : Nat) : List Char → Option Nat
  | [] => some acc
  | '_' :: rest =>
    match rest with
    | c :: rest2 => if isHexDigitCh c then hexTail (acc * 16 + hexDigitVal c) rest2 else none
    | [] => none
  | c :: rest => if isHexDigitCh c then hexTail (acc * 16 + hexDigitVal c) rest else none

/-- The digit part of `int(s, 16)`: at least one digit; a single leading
underscore is allowed only right after a `0x` prefix. -/
def hexDigits (allowLeadingUnderscore : Bool) (s : List Char) : Option Nat :=
  match s with
  | [] => none
  | '_' :: rest =>
    if allowLeadingUnderscore then
      match rest with
      | c :: rest2 => if isHexDigitCh c then hexTail (hexDigitVal c) rest2 else none
      | [] => none
    else none
  | c :: rest => if isHexDigitCh c then hexTail (hexDigitVal c) rest else none

/-- Body of `int(s, 16)` after sign handling: optional `0x`/`0X` prefix. -/
def hexBody (s : List Char) : Option Nat :=
  match s with
  | '0' :: 'x' :: rest => hexDigits true rest
  | '0' :: 'X' :: rest => hexDigits true rest
  | _ => hexDigits false s

/-- ASCII whitespace stripped by Python `str.strip()` (the module's inputs
are filenames; non-ASCII whitespace is not modelled). -/
def isPySpace (c : Char) : Bool :=
  c = ' ' || c = '\t' || c = '\n' || c = '\r' || c = '\x0b' || c = '\x0c'

/-- Strip leading and trailing whitespace, as `int()` does. -/
def stripPySpaces (s : List Char) : List Char :=
  ((s.dropWhile isPySpace).reverse.dropWhile isPySpace).reverse

/-- The Python builtin `int(s, 16)`: optional surrounding whitespace,
optional sign, optional `0x` prefix, then hex digits. -/
def pyIntHex (s : List Char) : Option Int :=
  match stripPySpaces s with
  | '+' :: rest => (hexBody rest).map (fun n => (n : Int))
  | '-' :: rest => (hexBody rest).map (fun n => -(n : Int))
  | t => (hexBody t).map (fun n => (n : Int))

/-- Split a string at the last occurrence of `sep` (`none` when `sep` does
not occur).  One step of Python `rsplit(sep, k)`. -/
def splitAtLast (sep : Char) : List Char → Option (List Char × List Char)
  | [] => none
  | c :: rest =>
    match splitAtLast sep rest with
    | some (a, b) => some (c :: a, b)
    | none => if c = sep then some ([], rest) else none

/-- Modelled from the spec: the filename component of a raw dump-file path
(`PathSpec.Basename`, which lives outside this module, takes the
`posixpath` basename of the path). -/
def pathBasename (s : List Char) : List Char :=
  match splitAtLast '/' s with
  | some (_, b) => b
  | none => s

/-! ### PathSpec and `_CanonicalizeLegacyWindowsPathSpec` -/

/-- An `rdf_paths.PathSpec`; only its `path` attribute is touched by this
module. -/
structure PathSpec where
  path : List Char
deriving DecidableEq

/-- Replace each backslash by a forward slash; with a one-character
separator this is exactly Python's `"/".join(path.split("\\"))`. -/
def backslashToSlash (c : Char) : Char :=
  if c = '\\' then '/' else c

/-- The condition `ps.path[1:3] == ":\\" and "/" not in ps.path` of
`_CanonicalizeLegacyWindowsPathSpec`: the slice comparison forces a length
of at least three with `':'` and `'\\'` in positions 1 and 2. -/
def isLegacyWindowsPath (p : List Char) : Bool :=
  match p with
  | _ :: b :: d :: _ => decide (b = ':') && decide (d = '\\') && !(decide ('/' ∈ p))
  | _ => false

/-- `_CanonicalizeLegacyWindowsPathSpec`: copies its argument and, when the
legacy Windows form is detected, rewrites the copy's path to
`"/" + "/".join(path.split("\\"))`. -/
def CanonicalizeLegacyWindowsPathSpec (ps : PathSpec) : PathSpec :=
  if isLegacyWindowsPath ps.path then
    { ps with path := '/' :: ps.path.map backslashToSlash }
  else ps

/-! ### Data model of the dump response (`rdf_memory` messages) -/

/-- A process descriptor (`rdf_client.Process`); only the fields read by
this module are modelled. -/
structure Process where
  pid : Nat
  name : List Char
  exe : List Char
deriving DecidableEq

/-- An `rdf_memory.ProcessMemoryRegion` as built by the migration:
`file`, `start` and `size` (Python ints, so `Int`). -/
structure ProcessMemoryRegion where
  file : PathSpec
  start : Int
  size : Int
deriving DecidableEq

/-- An `rdf_memory.YaraProcessDumpInformation`: a dumped process with its
memory regions, plus the legacy `dump_files` list (empty on new agents). -/
structure DumpedProcessInfo where
  process : Process
  memory_regions : List ProcessMemoryRegion
  dump_files : List PathSpec
deriving DecidableEq

/-- A per-process dump error entry of the response. -/
structure ProcessDumpError where
  process : Process
  error : List Char
deriving DecidableEq

/-- An `rdf_memory.YaraProcessDumpResponse`. -/
structure YaraProcessDumpResponse where
  dumped_processes : List DumpedProcessInfo
  errors : List ProcessDumpError
deriving DecidableEq

/-! ### `_MigrateLegacyDumpFilesToMemoryAreas` -/

/-- Processing of one legacy `dump_file` entry:
`path_without_ext, _ = dump_file.Basename().rsplit(".", 1)` followed by
`_, _, start, end = path_without_ext.rsplit("_", 3)` and two base-16
conversions; any step that would raise `ValueError` in Python yields
`none`.  On success the appended region is returned. -/
def migrateDumpFile (df : PathSpec) : Option ProcessMemoryRegion := do
  let (pathWithoutExt, _) ← splitAtLast '.' (pathBasename df.path)
  let (rest1, endStr) ← splitAtLast '_' pathWithoutExt
  let (rest2, startStr) ← splitAtLast '_' rest1
  let _ ← splitAtLast '_' rest2
  let s ← pyIntHex startStr
  let e ← pyIntHex endStr
  pure { file := CanonicalizeLegacyWindowsPathSpec df, start := s, size := e - s }

/-- The inner loop over `info.dump_files`: regions are appended one by one
to the mutable `memory_regions` list; a parse failure stops the loop with
the appends made so far kept (the Boolean records the raised error). -/
def migrateFiles (regions : List ProcessMemoryRegion) :
    List PathSpec → List ProcessMemoryRegion × Bool
  | [] => (regions, false)
  | df :: rest =>
    match migrateDumpFile df with
    | some reg => migrateFiles (regions ++ [reg]) rest
    | none => (regions, true)

/-- One iteration of the outer loop: migrate the `dump_files` of one
`DumpedProcessInfo`; `info.dump_files = None` runs only when no entry
raised. -/
def migrateInfo (info : DumpedProcessInfo) : DumpedProcessInfo × Bool :=
  let res := migrateFiles info.memory_regions info.dump_files
  if res.2 then ({ info with memory_regions := res.1 }, true)
  else ({ info with memory_regions := res.1, dump_files := [] }, false)

/-- The outer loop over `response.dumped_processes`, stopping at the first
info whose migration raised. -/
def migrateInfos : List DumpedProcessInfo → List DumpedProcessInfo × Bool
  | [] => ([], false)
  | info :: rest =>
    let r := migrateInfo info
    if r.2 then (r.1 :: rest, true)
    else
      let r2 := migrateInfos rest
      (r.1 :: r2.1, r2.2)

/-- `_MigrateLegacyDumpFilesToMemoryAreas`: the in-place mutation of the
response is modelled by returning the final state of the response together
with a flag telling whether a `ValueError` was raised. -/
def MigrateLegacyDumpFilesToMemoryAreas (resp : YaraProcessDumpResponse) :
    YaraProcessDumpResponse × Bool :=
  let r := migrateInfos resp.dumped_processes
  ({ resp with dumped_processes := r.1 }, r.2)

/-! ### Scan flow (`YaraProcessScan`) -/

/-- One per-rule match inside a scan match; only the rule name (used for a
debug-log line) is modelled. -/
structure RuleMatch where
  rule_name : List Char
deriving DecidableEq

/-- An `rdf_memory.YaraProcessScanMatch`. -/
structure YaraProcessScanMatch where
  process : Process
  rule_matches : List RuleMatch
deriving DecidableEq

/-- A scan error entry (process plus message). -/
structure ProcessScanError where
  process : Process
  error : List Char
deriving DecidableEq

/-- A scan miss entry. -/
structure ProcessScanMiss where
  process : Process
deriving DecidableEq

/-- An `rdf_memory.YaraProcessScanResponse`: one response unit of the
client call. -/
structure YaraProcessScanResponse where
  -- the source field is named `matches`, a Lean keyword
  scan_matches : List YaraProcessScanMatch
  errors : List ProcessScanError
  misses : List ProcessScanMiss
deriving DecidableEq

/-- The `rdf_memory.YaraProcessScanRequest` arguments.  `signature_rules`
is modelled from the spec as the request's signature rule set
(`self.args.yara_signature.GetRules()` parses the signature outside this
module). -/
structure YaraProcessScanRequest where
  signature_rules : List (List Char)
  process_regex : List Char
  dump_process_on_match : Bool
  include_errors_in_results : Bool
  include_misses_in_results : Bool
  skip_special_regions : Bool
  skip_mapped_files : Bool
  skip_shared_regions : Bool
  skip_executable_regions : Bool
  skip_readonly_regions : Bool
deriving DecidableEq

/-- Outcome of a flow `Start` method: either a raised error, or the single
`CallClient` dispatch it issues. -/
inductive ScanStartResult where
  | flowError (msg : List Char)
  | regexError
  | callClient (request : YaraProcessScanRequest)
deriving DecidableEq

/-- `YaraProcessScan.Start`.  `regexCompiles` abstracts `re.compile`
succeeding on a pattern (the `re` module is outside this code); it is only
consulted for a non-empty (truthy) `process_regex`. -/
def YaraProcessScan.Start (regexCompiles : List Char → Bool)
    (args : YaraProcessScanRequest) : ScanStartResult :=
  if args.signature_rules = [] then
    .flowError ("No rules found in the signature specification.".data)
  else if args.process_regex ≠ [] ∧ regexCompiles args.process_regex = false then
    .regexError
  else .callClient args

/-- One streamed result of the scan flow (a `SendReply`). -/
inductive ScanReply where
  | matchReply (m : YaraProcessScanMatch)
  | errorReply (e : ProcessScanError)
  | missReply (m : ProcessScanMiss)
deriving DecidableEq

/-- The `CallFlow(DumpProcessMemory, ...)` dispatch: `pids=list(pids_to_dump)`
passes the accumulated set (the order `list` produces from a Python set is
unspecified, so the argument is modelled as the set itself), and the five
region-skip flags are forwarded. -/
structure DumpFlowCall where
  pids : Finset Nat
  skip_special_regions : Bool
  skip_mapped_files : Bool
  skip_shared_regions : Bool
  skip_executable_regions : Bool
  skip_readonly_regions : Bool
deriving DecidableEq

/-- The replies emitted for one response unit, in program order: each
match, then each error when `include_errors_in_results`, then each miss
when `include_misses_in_results`. -/
def unitReplies (args : YaraProcessScanRequest) (r : YaraProcessScanResponse) :
    List ScanReply :=
  r.scan_matches.map ScanReply.matchReply
    ++ (if args.include_errors_in_results then r.errors.map ScanReply.errorReply else [])
    ++ (if args.include_misses_in_results then r.misses.map ScanReply.missReply else [])

/-- The `pids_to_dump` accumulation for one response unit: a pid is added
for each match when `dump_process_on_match` is set. -/
def unitPids (dumpOnMatch : Bool) (acc : Finset Nat) (r : YaraProcessScanResponse) :
    Finset Nat :=
  r.scan_matches.foldl (fun a m => if dumpOnMatch then insert m.process.pid a else a) acc

/-- `YaraProcessScan.ProcessScanResults`: on failure the flow raises with
the remote status; on success it emits the replies of every unit in order
and, exactly when `pids_to_dump` ended non-empty, issues one
`CallFlow(DumpProcessMemory, ...)`. -/
def YaraProcessScan.ProcessScanResults (args : YaraProcessScanRequest)
    (success : Bool) (status : List Char)
    (responses : List YaraProcessScanResponse) :
    Except (List Char) (List ScanReply × Option DumpFlowCall) :=
  if success = false then .error status
  else
    let pids := responses.foldl (unitPids args.dump_process_on_match) ∅
    let replies := responses.foldl (fun acc r => acc ++ unitReplies args r) []
    .ok (replies,
      if pids = ∅ then none
      else some { pids := pids,
                  skip_special_regions := args.skip_special_regions,
                  skip_mapped_files := args.skip_mapped_files,
                  skip_shared_regions := args.skip_shared_regions,
                  skip_executable_regions := args.skip_executable_regions,
                  skip_readonly_regions := args.skip_readonly_regions })

/-- `YaraProcessScan.CheckDumpProcessMemoryResults`: raises on a failed
sub-flow, otherwise re-emits every sub-flow result as this flow's own
replies, in order. -/
def YaraProcessScan.CheckDumpProcessMemoryResults {α : Type} (success : Bool)
    (status : List Char) (responses : List α) : Except (List Char) (List α) :=
  if success then .ok responses else .error status

/-! ### Dump flow (`DumpProcessMemory`) -/

/-- The `rdf_memory.YaraProcessDumpArgs` arguments. -/
structure YaraProcessDumpArgs where
  dump_all_processes : Bool
  pids : List Nat
  process_regex : List Char
  skip_special_regions : Bool
  skip_mapped_files : Bool
  skip_shared_regions : Bool
  skip_executable_regions : Bool
  skip_readonly_regions : Bool
deriving DecidableEq

/-- Outcome of `DumpProcessMemory.Start`. -/
inductive DumpStartResult where
  | regexError
  | valueError (msg : List Char)
  | callClient (request : YaraProcessDumpArgs)
deriving DecidableEq

/-- `DumpProcessMemory.Start`: the regex is compiled first (when truthy),
then the target-selection validation runs, and only then is the single
`CallClient(YaraProcessDump, ...)` issued. -/
def DumpProcessMemory.Start (regexCompiles : List Char → Bool)
    (args : YaraProcessDumpArgs) : DumpStartResult :=
  if args.process_regex ≠ [] ∧ regexCompiles args.process_regex = false then
    .regexError
  else if ¬ (args.dump_all_processes = true ∨ args.pids ≠ [] ∨ args.process_regex ≠ []) then
    .valueError ("No processes to dump specified.".data)
  else .callClient args

/-- The `CallFlow(MultiGetFile, ...)` dispatch of `ProcessResults`. -/
structure MultiGetFileCall where
  pathspecs : List PathSpec
  file_size : Nat
  use_external_stores : Bool
deriving DecidableEq

/-- Outcome of `DumpProcessMemory.ProcessResults`: the raised remote
failure, the raised migration `ValueError`, or termination with the
emitted (migrated) first response unit — with or without a fetch
sub-flow. -/
inductive DumpResultsOutcome where
  | flowError (status : List Char)
  | parseFailure
  | done (emitted : YaraProcessDumpResponse)
  | fetch (emitted : YaraProcessDumpResponse) (call : MultiGetFileCall)
deriving DecidableEq

/-- `DumpProcessMemory.ProcessResults`: only `responses.First()` is used;
an empty batch (where `First()` yields `None` and the migration then
crashes) is left unmodelled (`none`).  `self.Log` calls have no modelled
effect. -/
def DumpProcessMemory.ProcessResults (success : Bool) (status : List Char)
    (responses : List YaraProcessDumpResponse) : Option DumpResultsOutcome :=
  if success = false then some (.flowError status)
  else
    match responses with
    | [] => none
    | first :: _ =>
      let m := MigrateLegacyDumpFilesToMemoryAreas first
      if m.2 then some .parseFailure
      else
        let dumpFilesToGet :=
          m.1.dumped_processes.foldl
            (fun acc dp => acc ++ dp.memory_regions.map (fun reg => reg.file)) []
        if dumpFilesToGet = [] then some (.done m.1)
        else some (.fetch m.1
          { pathspecs := dumpFilesToGet,
            file_size := 1024 * 1024 * 1024,
            use_external_stores := false })

/-- `DumpProcessMemory.LogDeleteFiles`: the handler of one deletion
acknowledgement.  It sees nothing but that acknowledgement's status; a
failed one raises `FlowError("Could not delete file: %s" % status)`. -/
def DumpProcessMemory.LogDeleteFiles (success : Bool) (status : List Char) :
    Option (List Char) :=
  if success then none else some ("Could not delete file: ".data ++ status)

/-! ### Lemmas about the canonicalizer -/

/-- The code's slice test, re-expressed positionally. -/
theorem isLegacyWindowsPath_iff (p : List Char) :
    isLegacyWindowsPath p = true ↔
      (p[1]? = some ':' ∧ p[2]? = some '\\' ∧ '/' ∉ p) := by
  match p with
  | [] => simp [isLegacyWindowsPath]
  | [a] => simp [isLegacyWindowsPath]
  | [a, b] => simp [isLegacyWindowsPath]
  | a :: b :: d :: t =>
    simp [isLegacyWindowsPath, and_assoc]

/-- A path containing a forward slash is never detected as legacy. -/
theorem isLegacyWindowsPath_of_mem_slash {p : List Char} (h : '/' ∈ p) :
    isLegacyWindowsPath p = false := by
  cases hb : isLegacyWindowsPath p with
  | false => rfl
  | true => exact absurd h ((isLegacyWindowsPath_iff p).mp hb).2.2

/-- The rewritten path of a detected legacy path. -/
theorem canonicalize_pos {ps : PathSpec} (h : isLegacyWindowsPath ps.path = true) :
    CanonicalizeLegacyWindowsPathSpec ps =
      { ps with path := '/' :: ps.path.map backslashToSlash } := by
  simp [CanonicalizeLegacyWindowsPathSpec, h]

/-- A non-legacy path is returned as-is. -/
theorem canonicalize_neg {ps : PathSpec} (h : isLegacyWindowsPath ps.path = false) :
    CanonicalizeLegacyWindowsPathSpec ps = ps := by
  simp [CanonicalizeLegacyWindowsPathSpec, h]

/-- The claim's wording of the rewrite condition: a SINGLE-LETTER drive
followed by `:\`, with no forward slash anywhere. -/
def specSingleLetterDrive (p : List Char) : Bool :=
  match p with
  | c :: b :: d :: _ =>
    c.isAlpha && decide (b = ':') && decide (d = '\\') && !(decide ('/' ∈ p))
  | _ => false

/-- C4 counterexample: the path `"1:\a"` is not of the claimed
single-letter-drive form, yet `_CanonicalizeLegacyWindowsPathSpec`
rewrites it (the code never checks that the first character is a
letter), so the claimed "if and only if" fails. -/
theorem claim_C4_counterexample :
    specSingleLetterDrive ("1:\\a".data) = false ∧
    (CanonicalizeLegacyWindowsPathSpec ⟨"1:\\a".data⟩).path ≠ "1:\\a".data := by
  decide

/-- C4 (amended): `_CanonicalizeLegacyWindowsPathSpec` rewrites the path
if and only if the path has `':'` in position 1 and `'\'` in position 2
(the leading character may be ANY single character, not only a letter)
and contains no forward slash; when it rewrites, the result is the input
prefixed with `'/'` with every backslash replaced by `'/'`; otherwise the
input is returned unchanged.  (The function is pure: the code copies its
argument before assigning, so the argument is never mutated.) -/
theorem claim_C4_amended (ps : PathSpec) :
    ((CanonicalizeLegacyWindowsPathSpec ps).path ≠ ps.path ↔
      (ps.path[1]? = some ':' ∧ ps.path[2]? = some '\\' ∧ '/' ∉ ps.path))
    ∧ ((ps.path[1]? = some ':' ∧ ps.path[2]? = some '\\' ∧ '/' ∉ ps.path) →
        (CanonicalizeLegacyWindowsPathSpec ps).path =
          '/' :: ps.path.map backslashToSlash)
    ∧ (¬ (ps.path[1]? = some ':' ∧ ps.path[2]? = some '\\' ∧ '/' ∉ ps.path) →
        CanonicalizeLegacyWindowsPathSpec ps = ps) := by
  by_cases h : isLegacyWindowsPath ps.path = true
  · have hc := (isLegacyWindowsPath_iff ps.path).mp h
    have hpos := canonicalize_pos h
    refine ⟨⟨fun _ => hc, fun _ => ?_⟩, fun _ => by rw [hpos], fun hn => absurd hc hn⟩
    rw [hpos]
    intro heq
    have hlen := congrArg List.length heq
    simp at hlen
  · have hf : isLegacyWindowsPath ps.path = false := by simpa using h
    have hneg := canonicalize_neg hf
    have hnc : ¬ (ps.path[1]? = some ':' ∧ ps.path[2]? = some '\\' ∧ '/' ∉ ps.path) :=
      fun hc => h ((isLegacyWindowsPath_iff ps.path).mpr hc)
    exact ⟨by rw [hneg]; simp [hnc], fun hc => absurd hc hnc, fun _ => hneg⟩

/-- C4 witness: the amended theorem applied to `"C:\W"`. -/
theorem claim_C4_witness :
    (CanonicalizeLegacyWindowsPathSpec ⟨"C:\\W".data⟩).path =
      '/' :: ("C:\\W".data.map backslashToSlash) :=
  (claim_C4_amended ⟨"C:\\W".data⟩).2.1 (by decide)

/-- C5: `_CanonicalizeLegacyWindowsPathSpec` is idempotent, and any path
containing a forward slash is returned unchanged. -/
theorem claim_C5 :
    (∀ ps : PathSpec,
      CanonicalizeLegacyWindowsPathSpec (CanonicalizeLegacyWindowsPathSpec ps) =
        CanonicalizeLegacyWindowsPathSpec ps)
    ∧ (∀ ps : PathSpec, '/' ∈ ps.path → CanonicalizeLegacyWindowsPathSpec ps = ps) := by
  have hslash : ∀ ps : PathSpec, '/' ∈ ps.path →
      CanonicalizeLegacyWindowsPathSpec ps = ps :=
    fun ps h => canonicalize_neg (isLegacyWindowsPath_of_mem_slash h)
  refine ⟨fun ps => ?_, hslash⟩
  by_cases h : isLegacyWindowsPath ps.path = true
  · rw [canonicalize_pos h]
    exact hslash _ (by simp)
  · have hf : isLegacyWindowsPath ps.path = false := by simpa using h
    rw [canonicalize_neg hf, canonicalize_neg hf]

/-- C5 witness: a path containing a forward slash is returned unchanged. -/
theorem claim_C5_witness :
    CanonicalizeLegacyWindowsPathSpec ⟨"a/b".data⟩ = ⟨"a/b".data⟩ :=
  claim_C5.2 ⟨"a/b".data⟩ (by decide)

/-! ### Lemmas about the migration -/

/-- When every entry parses, the inner loop appends exactly the parsed
regions, in order, and raises nothing. -/
theorem migrateFiles_ok (dfs : List PathSpec) :
    ∀ (regions regs : List ProcessMemoryRegion),
      dfs.mapM migrateDumpFile = some regs →
      migrateFiles regions dfs = (regions ++ regs, false) := by
  induction dfs with
  | nil =>
    intro regions regs h
    simp only [List.mapM_nil, pure, Option.some.injEq] at h
    simp [migrateFiles, ← h]
  | cons df rest ih =>
    intro regions regs h
    rw [List.mapM_cons] at h
    cases hdf : migrateDumpFile df with
    | none => simp [hdf] at h
    | some reg =>
      simp only [hdf, Option.bind_eq_bind, Option.some_bind, Option.bind_eq_some,
        Option.some.injEq] at h
      obtain ⟨xs, hxs, hregs⟩ := h
      have hregs2 : reg :: xs = regs := by simpa using hregs
      simp only [migrateFiles, hdf]
      rw [ih (regions ++ [reg]) xs hxs, ← hregs2]
      simp

/-- The inner loop reports an error exactly when some entry is
malformed. -/
theorem migrateFiles_err_iff (dfs : List PathSpec) :
    ∀ regions : List ProcessMemoryRegion,
      (migrateFiles regions dfs).2 = true ↔
        ∃ df ∈ dfs, migrateDumpFile df = none := by
  induction dfs with
  | nil => intro regions; simp [migrateFiles]
  | cons df rest ih =>
    intro regions
    cases hdf : migrateDumpFile df with
    | none =>
      simp only [migrateFiles, hdf]
      simp only [true_iff]
      exact ⟨df, List.mem_cons_self df rest, hdf⟩
    | some reg =>
      simp only [migrateFiles, hdf]
      rw [ih]
      constructor
      · rintro ⟨x, hx, hnone⟩
        exact ⟨x, List.mem_cons_of_mem _ hx, hnone⟩
      · rintro ⟨x, hx, hnone⟩
        rcases List.mem_cons.mp hx with h1 | h2
        · rw [h1] at hnone
          rw [hnone] at hdf
          exact absurd hdf (by simp)
        · exact ⟨x, h2, hnone⟩

/-- The error flag of one info's migration is that of its inner loop. -/
theorem migrateInfo_snd (info : DumpedProcessInfo) :
    (migrateInfo info).2 = (migrateFiles info.memory_regions info.dump_files).2 := by
  unfold migrateInfo
  cases h : (migrateFiles info.memory_regions info.dump_files).2 <;> simp [h]

/-- One info's migration errs exactly when one of its entries is
malformed. -/
theorem migrateInfo_err_iff (info : DumpedProcessInfo) :
    (migrateInfo info).2 = true ↔
      ∃ df ∈ info.dump_files, migrateDumpFile df = none := by
  rw [migrateInfo_snd]
  exact migrateFiles_err_iff info.dump_files info.memory_regions

/-- A successfully migrated info has its `dump_files` cleared. -/
theorem migrateInfo_ok_clears (info : DumpedProcessInfo)
    (h : (migrateInfo info).2 = false) : (migrateInfo info).1.dump_files = [] := by
  rw [migrateInfo_snd] at h
  unfold migrateInfo
  simp [h]

/-- The outer loop errs exactly when some info has a malformed entry. -/
theorem migrateInfos_err_iff (infos : List DumpedProcessInfo) :
    (migrateInfos infos).2 = true ↔
      ∃ info ∈ infos, ∃ df ∈ info.dump_files, migrateDumpFile df = none := by
  induction infos with
  | nil => simp [migrateInfos]
  | cons i rest ih =>
    simp only [migrateInfos]
    cases herr : (migrateInfo i).2 with
    | true =>
      rw [if_pos rfl]
      simp only [true_iff]
      obtain ⟨df, hdf, hnone⟩ := (migrateInfo_err_iff i).mp herr
      exact ⟨i, List.mem_cons_self i rest, df, hdf, hnone⟩
    | false =>
      rw [if_neg (by simp)]
      show (migrateInfos rest).2 = true ↔ _
      rw [ih]
      have hni : ¬ ∃ df ∈ i.dump_files, migrateDumpFile df = none := by
        intro hc
        rw [(migrateInfo_err_iff i).mpr hc] at herr
        exact absurd herr (by simp)
      constructor
      · rintro ⟨info, hmem, hdf⟩
        exact ⟨info, List.mem_cons_of_mem _ hmem, hdf⟩
      · rintro ⟨info, hmem, hdf⟩
        rcases List.mem_cons.mp hmem with h1 | h2
        · rw [h1] at hdf
          exact absurd hdf hni
        · exact ⟨info, h2, hdf⟩

/-- After a successful outer loop, every info has empty `dump_files`. -/
theorem migrateInfos_clears (infos : List DumpedProcessInfo) :
    (migrateInfos infos).2 = false →
      ∀ info ∈ (migrateInfos infos).1, info.dump_files = [] := by
  induction infos with
  | nil => intro _ info h; simp [migrateInfos] at h
  | cons i rest ih =>
    intro hok info hmem
    simp only [migrateInfos] at hok hmem
    cases herr : (migrateInfo i).2 with
    | true => rw [if_pos herr] at hok; simp at hok
    | false =>
      rw [if_neg (by simp [herr])] at hok hmem
      rcases List.mem_cons.mp hmem with h1 | h2
      · rw [h1]
        exact migrateInfo_ok_clears i herr
      · exact ih hok info h2

/-- `_MigrateLegacyDumpFilesToMemoryAreas` raises exactly when some
dumped process carries a malformed legacy dump-file name. -/
theorem migrateResponse_err_iff (resp : YaraProcessDumpResponse) :
    (MigrateLegacyDumpFilesToMemoryAreas resp).2 = true ↔
      ∃ info ∈ resp.dumped_processes, ∃ df ∈ info.dump_files,
        migrateDumpFile df = none := by
  simp only [MigrateLegacyDumpFilesToMemoryAreas]
  exact migrateInfos_err_iff resp.dumped_processes

/-- C1: for every legacy dump-file path whose filename minus extension
right-splits on `'_'` into at least four fields whose last two are valid
base-16 integers, the migration appends a region with
`start = startHex`, `size = endHex - startHex` and the canonicalized raw
path as file locator; regions are appended to `memory_regions` in entry
order and `dump_files` is cleared; in particular
`"proc_1234_1a00_2000.tmp"` yields `start = 0x1a00` and `size = 0x600`
with `dump_files` empty afterwards. -/
theorem claim_C1 :
    (∀ (df : PathSpec) (pwe ext q1 q2 n1 n2 startStr endStr : List Char)
        (sv ev : Int),
      splitAtLast '.' (pathBasename df.path) = some (pwe, ext) →
      splitAtLast '_' pwe = some (q1, endStr) →
      splitAtLast '_' q1 = some (q2, startStr) →
      splitAtLast '_' q2 = some (n1, n2) →
      pyIntHex startStr = some sv →
      pyIntHex endStr = some ev →
      migrateDumpFile df =
        some { file := CanonicalizeLegacyWindowsPathSpec df,
               start := sv, size := ev - sv })
    ∧ (∀ (info : DumpedProcessInfo) (regs : List ProcessMemoryRegion),
        info.dump_files.mapM migrateDumpFile = some regs →
        migrateInfo info =
          ({ info with memory_regions := info.memory_regions ++ regs,
                       dump_files := [] }, false))
    ∧ migrateInfo
        { process := { pid := 1234, name := "proc".data, exe := [] },
          memory_regions := [],
          dump_files := [⟨"proc_1234_1a00_2000.tmp".data⟩] } =
      ({ process := { pid := 1234, name := "proc".data, exe := [] },
         memory_regions :=
           [{ file := ⟨"proc_1234_1a00_2000.tmp".data⟩,
              start := 6656, size := 1536 }],
         dump_files := [] }, false) := by
  refine ⟨?_, ?_, by decide⟩
  · intro df pwe ext q1 q2 n1 n2 startStr endStr sv ev h1 h2 h3 h4 h5 h6
    simp [migrateDumpFile, h1, h2, h3, h4, h5, h6]
  · intro info regs h
    have hok := migrateFiles_ok info.dump_files info.memory_regions regs h
    simp [migrateInfo, hok]

/-- C1 witness: the general part of the theorem applied to the spec's
example path. -/
theorem claim_C1_witness :
    migrateDumpFile ⟨"proc_1234_1a00_2000.tmp".data⟩ =
      some { file := CanonicalizeLegacyWindowsPathSpec
               ⟨"proc_1234_1a00_2000.tmp".data⟩,
             start := 6656, size := 8192 - 6656 } :=
  claim_C1.1 ⟨"proc_1234_1a00_2000.tmp".data⟩ "proc_1234_1a00_2000".data
    "tmp".data "proc_1234_1a00".data "proc_1234".data "proc".data "1234".data
    "1a00".data "2000".data 6656 8192 (by decide) (by decide) (by decide)
    (by decide) (by decide) (by decide)

/-- A response unit mixing one well-formed legacy entry with one malformed
entry (fewer than four underscore-separated fields after removing the
extension), for the atomicity analysis of the migration. -/
def exMixedInfo : DumpedProcessInfo :=
  { process := { pid := 7, name := "a".data, exe := [] },
    memory_regions := [],
    dump_files := [⟨"a_1_2_3.tmp".data⟩, ⟨"bad.tmp".data⟩] }

/-- The response unit holding `exMixedInfo`. -/
def exMixedUnit : YaraProcessDumpResponse :=
  { dumped_processes := [exMixedInfo], errors := [] }

/-- C2 counterexample: on a unit whose first legacy entry is well-formed
and whose second is malformed, the migration raises — but the unit is
NOT left unchanged: the region appended for the earlier well-formed
entry remains (1 region) and `dump_files` is not cleared (still 2
entries), so the claimed per-unit atomicity fails. -/
theorem claim_C2_counterexample :
    (MigrateLegacyDumpFilesToMemoryAreas exMixedUnit).2 = true ∧
    (MigrateLegacyDumpFilesToMemoryAreas exMixedUnit).1 ≠ exMixedUnit ∧
    ((MigrateLegacyDumpFilesToMemoryAreas exMixedUnit).1.dumped_processes.map
        (fun info => info.memory_regions.length)) = [1] := by
  decide

/-- C2 (amended): a response unit containing a dump-file path whose
filename does not match the expected encoding makes the migration fail
with the parse error (it raises exactly when some entry is malformed),
but the migration is NOT atomic: the unit keeps the regions appended for
earlier well-formed entries and the failing info's `dump_files` is not
cleared. -/
theorem claim_C2_amended :
    (∀ resp : YaraProcessDumpResponse,
      ((MigrateLegacyDumpFilesToMemoryAreas resp).2 = true ↔
        ∃ info ∈ resp.dumped_processes, ∃ df ∈ info.dump_files,
          migrateDumpFile df = none))
    ∧ ((MigrateLegacyDumpFilesToMemoryAreas exMixedUnit).1.dumped_processes.map
          (fun info => (info.memory_regions.length, info.dump_files.length))
        = [(1, 2)]) :=
  ⟨migrateResponse_err_iff, by decide⟩

/-- C2 witness: the amended equivalence applied to the mixed unit. -/
theorem claim_C2_witness :
    (MigrateLegacyDumpFilesToMemoryAreas exMixedUnit).2 = true :=
  (claim_C2_amended.1 exMixedUnit).mpr
    ⟨exMixedInfo, by decide, ⟨"bad.tmp".data⟩, by decide, by decide⟩

/-! ### Start-method claims -/

/-- C3: a dump request with `dump_all_processes` false, no pids and an
empty regex raises `ValueError("No processes to dump specified.")`; the
outcome type shows the single `CallClient` dispatch is never reached. -/
theorem claim_C3 (regexCompiles : List Char → Bool) (args : YaraProcessDumpArgs)
    (h1 : args.dump_all_processes = false) (h2 : args.pids = [])
    (h3 : args.process_regex = []) :
    DumpProcessMemory.Start regexCompiles args =
      .valueError ("No processes to dump specified.".data) := by
  simp [DumpProcessMemory.Start, h1, h2, h3]

/-- C3 witness. -/
theorem claim_C3_witness :
    DumpProcessMemory.Start (fun _ => true)
      { dump_all_processes := false, pids := [], process_regex := [],
        skip_special_regions := false, skip_mapped_files := false,
        skip_shared_regions := false, skip_executable_regions := false,
        skip_readonly_regions := false } =
      .valueError ("No processes to dump specified.".data) :=
  claim_C3 (fun _ => true) _ rfl rfl rfl

/-- C9: a scan request with an empty signature rule set raises
`FlowError("No rules found in the signature specification.")` before the
`CallClient` dispatch (the outcome is the raised error, not a call). -/
theorem claim_C9 (regexCompiles : List Char → Bool) (args : YaraProcessScanRequest)
    (h : args.signature_rules = []) :
    YaraProcessScan.Start regexCompiles args =
      .flowError ("No rules found in the signature specification.".data) := by
  simp [YaraProcessScan.Start, h]

/-- C9 witness. -/
theorem claim_C9_witness :
    YaraProcessScan.Start (fun _ => true)
      { signature_rules := [], process_regex := [],
        dump_process_on_match := false, include_errors_in_results := false,
        include_misses_in_results := false, skip_special_regions := false,
        skip_mapped_files := false, skip_shared_regions := false,
        skip_executable_regions := false, skip_readonly_regions := false } =
      .flowError ("No rules found in the signature specification.".data) :=
  claim_C9 (fun _ => true) _ rfl

/-! ### Pid accumulation of the scan flow -/

/-- Folding `insert` of the match pids equals the deduplicated pid set. -/
theorem foldl_insert_pids (ms : List YaraProcessScanMatch) :
    ∀ acc : Finset Nat,
      ms.foldl (fun a m => insert m.process.pid a) acc =
        acc ∪ (ms.map (fun m => m.process.pid)).toFinset := by
  induction ms with
  | nil => intro acc; simp
  | cons m rest ih =>
    intro acc
    simp only [List.foldl_cons, List.map_cons, List.toFinset_cons]
    rw [ih (insert m.process.pid acc), Finset.insert_union, Finset.union_insert]

/-- With `dump_process_on_match` set, one unit contributes exactly its
match pids, as a set. -/
theorem unitPids_true (r : YaraProcessScanResponse) (acc : Finset Nat) :
    unitPids true acc r =
      acc ∪ (r.scan_matches.map (fun m => m.process.pid)).toFinset := by
  have hfun : (fun (a : Finset Nat) (m : YaraProcessScanMatch) =>
      if (true : Bool) then insert m.process.pid a else a) =
      fun (a : Finset Nat) (m : YaraProcessScanMatch) => insert m.process.pid a := by
    funext a m
    simp
  unfold unitPids
  rw [hfun]
  exact foldl_insert_pids r.scan_matches acc

/-- The accumulated `pids_to_dump` set over all units is the deduplicated
set of all match pids, in unit order. -/
theorem pidsFold_eq (rs : List YaraProcessScanResponse) :
    ∀ acc : Finset Nat,
      rs.foldl (unitPids true) acc =
        acc ∪ ((rs.map (fun r => r.scan_matches)).flatten.map
                 (fun m => m.process.pid)).toFinset := by
  induction rs with
  | nil => intro acc; simp
  | cons r rest ih =>
    intro acc
    rw [List.foldl_cons, unitPids_true, ih]
    rw [List.map_cons, List.flatten_cons, List.map_append, List.toFinset_append,
      Finset.union_assoc]

/-- C6: on a successful scan response with `dump_process_on_match` set,
exactly one `DumpProcessMemory` sub-flow is spawned when some match
contributes a pid — its `pids` argument is the deduplicated set of all
match pids across all response units and the five region-skip flags are
forwarded — and none is spawned when no match contributes a pid; the
sub-flow completion handler re-emits every sub-flow result as this
flow's own replies. -/
theorem claim_C6 (args : YaraProcessScanRequest) (status : List Char)
    (responses : List YaraProcessScanResponse)
    (h : args.dump_process_on_match = true) :
    ((YaraProcessScan.ProcessScanResults args true status responses).toOption.map
        Prod.snd =
      some
        (if ((responses.map (fun r => r.scan_matches)).flatten.map
               (fun m => m.process.pid)).toFinset = ∅ then none
         else some
           { pids := ((responses.map (fun r => r.scan_matches)).flatten.map
                        (fun m => m.process.pid)).toFinset,
             skip_special_regions := args.skip_special_regions,
             skip_mapped_files := args.skip_mapped_files,
             skip_shared_regions := args.skip_shared_regions,
             skip_executable_regions := args.skip_executable_regions,
             skip_readonly_regions := args.skip_readonly_regions }))
    ∧ (∀ (α : Type) (status2 : List Char) (subResults : List α),
        YaraProcessScan.CheckDumpProcessMemoryResults true status2 subResults =
          .ok subResults) := by
  constructor
  · simp only [YaraProcessScan.ProcessScanResults, h]
    rw [pidsFold_eq responses ∅, Finset.empty_union]
    simp [Except.toOption]
  · intro α status2 subResults
    simp [YaraProcessScan.CheckDumpProcessMemoryResults]

/-- A scan match carrying only a pid, for the C6 witness. -/
def exScanMatch (p : Nat) : YaraProcessScanMatch :=
  { process := { pid := p, name := [], exe := [] }, rule_matches := [] }

/-- C6 witness: matches for pids 10, 20, 10 produce exactly one dump
sub-flow call with the deduplicated pid set `{10, 20}`. -/
theorem claim_C6_witness :
    (YaraProcessScan.ProcessScanResults
        { signature_rules := [['r']], process_regex := [],
          dump_process_on_match := true, include_errors_in_results := false,
          include_misses_in_results := false, skip_special_regions := false,
          skip_mapped_files := false, skip_shared_regions := false,
          skip_executable_regions := false, skip_readonly_regions := false }
        true []
        [{ scan_matches := [exScanMatch 10, exScanMatch 20, exScanMatch 10],
           errors := [], misses := [] }]).toOption.map Prod.snd =
      some (some
        { pids := {10, 20}, skip_special_regions := false,
          skip_mapped_files := false, skip_shared_regions := false,
          skip_executable_regions := false, skip_readonly_regions := false }) := by
  rw [(claim_C6 _ [] _ rfl).1, if_neg (by decide)]
  simp only [Option.some.injEq, DumpFlowCall.mk.injEq]
  exact ⟨by decide, trivial, trivial, trivial, trivial, trivial⟩

/-! ### Dump-result claims -/

/-- The locator accumulation loop of `ProcessResults` flattens the nested
region lists, in order. -/
theorem foldl_append_regions (dps : List DumpedProcessInfo) :
    ∀ acc : List PathSpec,
      dps.foldl (fun acc dp => acc ++ dp.memory_regions.map (fun reg => reg.file)) acc =
        acc ++ (dps.map (fun dp => dp.memory_regions.map (fun reg => reg.file))).flatten := by
  induction dps with
  | nil => intro acc; simp
  | cons dp rest ih =>
    intro acc
    rw [List.foldl_cons, ih, List.map_cons, List.flatten_cons, List.append_assoc]

/-- C7: on a successful dump response whose migration succeeds, the
migrated first unit is emitted and the file locators of all its regions
are flattened into one ordered sequence; if that sequence is empty the
flow returns (Done) without a fetch sub-flow, otherwise exactly one
`MultiGetFile` sub-flow is spawned with exactly those pathspecs in that
order, a per-file size cap of 1 GiB and external stores disabled. -/
theorem claim_C7 (status : List Char) (first : YaraProcessDumpResponse)
    (rest : List YaraProcessDumpResponse)
    (h : (MigrateLegacyDumpFilesToMemoryAreas first).2 = false) :
    DumpProcessMemory.ProcessResults true status (first :: rest) =
      some
        (if ((MigrateLegacyDumpFilesToMemoryAreas first).1.dumped_processes.map
               (fun dp => dp.memory_regions.map (fun reg => reg.file))).flatten = []
         then .done (MigrateLegacyDumpFilesToMemoryAreas first).1
         else .fetch (MigrateLegacyDumpFilesToMemoryAreas first).1
           { pathspecs :=
               ((MigrateLegacyDumpFilesToMemoryAreas first).1.dumped_processes.map
                  (fun dp => dp.memory_regions.map (fun reg => reg.file))).flatten,
             file_size := 1073741824,
             use_external_stores := false }) := by
  simp only [DumpProcessMemory.ProcessResults]
  rw [foldl_append_regions (MigrateLegacyDumpFilesToMemoryAreas first).1.dumped_processes []]
  simp [h]
  split <;> rfl

/-- C7 witness: a successful dump response that dumped one process with no
memory regions and no dump files terminates Done, with no fetch
sub-flow. -/
theorem claim_C7_witness :
    DumpProcessMemory.ProcessResults true []
      [{ dumped_processes :=
           [{ process := { pid := 3, name := ['x'], exe := [] },
              memory_regions := [], dump_files := [] }],
         errors := [] }] =
      some (.done
        { dumped_processes :=
            [{ process := { pid := 3, name := ['x'], exe := [] },
               memory_regions := [], dump_files := [] }],
          errors := [] }) := by
  rw [claim_C7 []
    { dumped_processes :=
        [{ process := { pid := 3, name := ['x'], exe := [] },
           memory_regions := [], dump_files := [] }],
      errors := [] } [] (by decide)]
  decide

/-- C8: every deletion acknowledgement that reports failure makes the
flow raise `FlowError("Could not delete file: <status>")`.  The handler
receives nothing but this single acknowledgement (each deletion is
dispatched as its own client call), so the failure is raised regardless
of the outcome or ordering of any other deletion. -/
theorem claim_C8 (status : List Char) :
    DumpProcessMemory.LogDeleteFiles false status =
      some ("Could not delete file: ".data ++ status) := rfl

/-- C10: `ProcessResults` only ever reads `responses.First()`: a batch
with additional response units behaves exactly like the batch holding
only the first unit, so every subsequent unit is silently ignored. -/
theorem claim_C10 (success : Bool) (status : List Char)
    (first : YaraProcessDumpResponse) (rest : List YaraProcessDumpResponse) :
    DumpProcessMemory.ProcessResults success status (first :: rest) =
      DumpProcessMemory.ProcessResults success status [first] := rfl
